import Mathlib

/-!
Shallow embedding of panubo/elb-trust-store-exporter (package collector,
file collector.go, and package cmd, file main.go).

The collector scrapes AWS ELBv2 trust stores on a timer, builds a list of
Prometheus const metrics (the Snapshot) and swaps it into the shared
`c.metrics` field under `c.mutex`; `Collect` reads that field under the same
mutex.  External effects (AWS config resolution, DescribeTrustStores, the
bundle-location call, the HTTP fetch of the bundle, reading the body) are
modelled as environment data supplied to the cycle; everything downstream of
those outcomes is translated directly from the source.
-/

namespace ElbTrustStore

/-- prometheus.BuildFQName: joins the non-empty parts with an underscore. -/
def buildFQName (ns sub nm : String) : String :=
  if nm = "" then ""
  else if ns ≠ "" ∧ sub ≠ "" then ns ++ "_" ++ sub ++ "_" ++ nm
  else if ns ≠ "" then ns ++ "_" ++ nm
  else if sub ≠ "" then sub ++ "_" ++ nm
  else nm

/-- The `namespace` constant of collector.go. -/
def metricNamespace : String := "elb_trust_store"

/-- A prometheus.Desc: fully-qualified metric name plus its variable label
names (help strings are irrelevant to the claims and omitted). -/
structure Desc where
  name : String
  labelNames : List String
deriving DecidableEq, Repr

/-- A prometheus const metric as produced by MustNewConstMetric: the desc's
name and label schema, the positional label values, and the gauge value.
Gauge values are float64 in Go; every value the collector produces is an
exact integer, count, timestamp or duration, modelled as a rational. -/
structure Metric where
  name : String
  labelNames : List String
  labelValues : List String
  value : Rat
deriving DecidableEq, Repr

/-- prometheus.MustNewConstMetric (gauge case). -/
def constMetric (d : Desc) (v : Rat) (lvs : List String) : Metric :=
  ⟨d.name, d.labelNames, lvs, v⟩

def collectorSuccessDesc : Desc :=
  ⟨buildFQName metricNamespace "" "collector_success", []⟩

def certificateInfoDesc : Desc :=
  ⟨buildFQName metricNamespace "certificate" "info",
   ["trust_store_arn", "serial_number", "issuer", "subject", "signature_algo", "key_length"]⟩

def certificateNotBeforeDesc : Desc :=
  ⟨buildFQName metricNamespace "certificate" "not_before",
   ["trust_store_arn", "serial_number", "subject"]⟩

def certificateExpiryDesc : Desc :=
  ⟨buildFQName metricNamespace "certificate" "expiry",
   ["trust_store_arn", "serial_number", "subject"]⟩

def trustStoreInfoDesc : Desc :=
  ⟨buildFQName metricNamespace "" "info", ["trust_store_arn", "name", "region"]⟩

def trustStoreCertificatesDesc : Desc :=
  ⟨buildFQName metricNamespace "" "certificates", ["trust_store_arn"]⟩

def trustStoreRevokedEntriesDesc : Desc :=
  ⟨buildFQName metricNamespace "" "revoked_entries", ["trust_store_arn"]⟩

def exporterLastScrapeTimestampDesc : Desc :=
  ⟨buildFQName metricNamespace "exporter" "last_scrape_timestamp", []⟩

def exporterScrapeDurationSecondsDesc : Desc :=
  ⟨buildFQName metricNamespace "exporter" "scrape_duration_seconds", []⟩

def exporterScrapeIntervalDesc : Desc :=
  ⟨buildFQName metricNamespace "exporter" "scrape_interval", []⟩

/-- The public key of a parsed certificate, as discriminated by the type
switch in collectTrustStoreMetrics: an *rsa.PublicKey carries its modulus N,
an *ecdsa.PublicKey carries its curve's declared BitSize, and anything else
falls into the default branch. -/
inductive PublicKey where
  | rsa (modulus : Nat)
  | ecdsa (curveBitSize : Nat)
  | unknown
deriving DecidableEq, Repr

/-- Structural helper for bitLen: the fuel bounds the recursion depth and
any fuel at least the argument gives the exact bit length. -/
def bitLenFuel : Nat → Nat → Nat
  | _, 0 => 0
  | n, fuel + 1 => if n = 0 then 0 else bitLenFuel (n / 2) fuel + 1

/-- big.Int.BitLen for a non-negative integer: the length of the absolute
value in bits, 0 for 0 (bitLen n = Nat.log2 n + 1 for positive n, proved
below). -/
def bitLen (n : Nat) : Nat := bitLenFuel n n

/-- An x509 certificate, restricted to the fields the collector reads.
String-valued fields hold the result of the corresponding Go String() call;
NotBefore/NotAfter hold Unix seconds. -/
structure Certificate where
  serialNumber : String
  issuer : String
  subject : String
  signatureAlgorithm : String
  publicKey : PublicKey
  notBefore : Int
  notAfter : Int
deriving DecidableEq, Repr

/-- One PEM block as returned by pem.Decode: its declared type tag, and the
result of x509.ParseCertificate on its Bytes payload (none when parsing the
payload fails). -/
structure PemBlock where
  blockType : String
  parsedCert : Option Certificate
deriving DecidableEq, Repr

/-- A PEM byte stream, abstracted to what pem.Decode observes: the sequence
of blocks that successive pem.Decode calls return, followed by trailing
bytes on which pem.Decode returns nil (garbage, or nothing).  The decode
loop cannot distinguish the trailing bytes beyond their presence: both
exhaustion and garbage make pem.Decode return nil and end the loop. -/
structure PemStream where
  blocks : List PemBlock
  trailingGarbage : Nat
deriving DecidableEq, Repr

/-- The keyLength computation of collectTrustStoreMetrics (lines 252-260):
RSA takes the modulus bit length, ECDSA the curve's BitSize, and any other
key kind returns the error of the default branch. -/
def keyLength (pk : PublicKey) : Except String Nat :=
  match pk with
  | .rsa n => .ok (bitLen n)
  | .ecdsa b => .ok b
  | .unknown => .error "unknown public key type"

/-- The three per-certificate samples appended for one successfully
characterized certificate (lines 262-264). -/
def certSamples (arn : String) (cert : Certificate) (kl : Nat) : List Metric :=
  [ constMetric certificateInfoDesc 1
      [arn, cert.serialNumber, cert.issuer, cert.subject,
       cert.signatureAlgorithm, toString kl],
    constMetric certificateNotBeforeDesc (cert.notBefore : Rat)
      [arn, cert.serialNumber, cert.subject],
    constMetric certificateExpiryDesc (cert.notAfter : Rat)
      [arn, cert.serialNumber, cert.subject] ]

/-- The PEM decode loop of collectTrustStoreMetrics (lines 235-265), acting
on the shared metrics slice.  Blocks whose type is not "CERTIFICATE" are
skipped; blocks whose payload fails to parse are logged and skipped; an
unknown public key kind returns an error immediately, leaving the samples
appended so far in place (the Go code appends through a pointer to the
caller's slice). -/
def processPemBlocks (arn : String) (blocks : List PemBlock)
    (metrics : List Metric) : List Metric × Option String :=
  match blocks with
  | [] => (metrics, none)
  | b :: rest =>
    if b.blockType ≠ "CERTIFICATE" then
      processPemBlocks arn rest metrics
    else
      match b.parsedCert with
      | none => processPemBlocks arn rest metrics
      | some cert =>
        match keyLength cert.publicKey with
        | .error e => (metrics, some e)
        | .ok kl => processPemBlocks arn rest (metrics ++ certSamples arn cert kl)

/-- The certificate extraction applied to a whole bundle: the decode loop
over the stream's blocks; the trailing bytes only ever make pem.Decode
return nil, ending the loop. -/
def extractBundle (arn : String) (s : PemStream) : List Metric × Option String :=
  processPemBlocks arn s.blocks []

/-- A trust store record (types.TrustStore), restricted to the dereferenced
fields the collector reads. -/
structure TrustStore where
  trustStoreArn : String
  name : String
  numberOfCaCertificates : Int
  totalRevokedEntries : Int
deriving DecidableEq, Repr

/-- The outcome of obtaining one trust store's bundle bytes: the
GetTrustStoreCaCertificatesBundle call, the HTTP GET of the returned
location, or reading the response body may each fail; otherwise the body is
a PEM stream. -/
inductive BundleOutcome where
  | bundleCallError
  | httpGetError
  | readBodyError
  | body (s : PemStream)
deriving DecidableEq, Repr

/-- The three per-trust-store samples appended unconditionally at the top of
collectTrustStoreMetrics (lines 210-212), before any bundle work. -/
def tsInfoSamples (region : String) (ts : TrustStore) : List Metric :=
  [ constMetric trustStoreInfoDesc 1 [ts.trustStoreArn, ts.name, region],
    constMetric trustStoreCertificatesDesc (ts.numberOfCaCertificates : Rat)
      [ts.trustStoreArn],
    constMetric trustStoreRevokedEntriesDesc (ts.totalRevokedEntries : Rat)
      [ts.trustStoreArn] ]

/-- collectTrustStoreMetrics (lines 209-267): appends the info/count samples
first, then obtains the bundle and runs the decode loop; any error is
returned to the caller, but all appends performed so far stay in the
caller's slice. -/
def collectTrustStoreMetrics (region : String) (ts : TrustStore)
    (outcome : BundleOutcome) (metrics : List Metric) :
    List Metric × Option String :=
  let m := metrics ++ tsInfoSamples region ts
  match outcome with
  | .bundleCallError => (m, some "bundle call error")
  | .httpGetError => (m, some "http get error")
  | .readBodyError => (m, some "read body error")
  | .body s => processPemBlocks ts.trustStoreArn s.blocks m

/-- The collector's configuration: the region and ARN list it was
constructed with (cmd.Run passes CLI.Region, which defaults to the empty
string when --region is not given, and CLI.TrustStoreARNs), and the scrape
interval in seconds. -/
structure CollectorConfig where
  region : String
  trustStoreARNs : List String
  scrapeIntervalSeconds : Rat
deriving DecidableEq, Repr

/-- The environment one scrape cycle observes: whether
config.LoadDefaultConfig succeeded, and the DescribeTrustStores outcome
(none on error, otherwise the returned trust stores each paired with its
bundle outcome). -/
structure ScrapeEnv where
  configOk : Bool
  describeOutcome : Option (List (TrustStore × BundleOutcome))
deriving DecidableEq, Repr

/-- One iteration of the loop over result.TrustStores (lines 182-187): run
collectTrustStoreMetrics on the shared slice and fold any error into the
success flag, then continue with the next store. -/
def collectStep (region : String) (acc : List Metric × Bool)
    (e : TrustStore × BundleOutcome) : List Metric × Bool :=
  let r := collectTrustStoreMetrics region e.1 e.2 acc.1
  (r.1, acc.2 && r.2.isNone)

/-- The four exporter-level samples appended at the end of every scrape
(lines 197-204), in source order. -/
def exporterSamples (intervalSeconds : Rat) (nowUnix : Int)
    (elapsedSeconds : Rat) (success : Bool) : List Metric :=
  [ constMetric exporterLastScrapeTimestampDesc (nowUnix : Rat) [],
    constMetric exporterScrapeDurationSecondsDesc elapsedSeconds [],
    constMetric exporterScrapeIntervalDesc intervalSeconds [],
    constMetric collectorSuccessDesc (if success then 1 else 0) [] ]

/-- The trust-store phase of scrape (lines 152-189): config failure or
DescribeTrustStores failure yields no samples and success=false; otherwise
every returned trust store is processed in order, accumulating samples and
the success flag. -/
def scrapeBody (c : CollectorConfig) (env : ScrapeEnv) : List Metric × Bool :=
  if env.configOk then
    match env.describeOutcome with
    | none => ([], false)
    | some stores => stores.foldl (collectStep c.region) ([], true)
  else ([], false)

/-- One whole scrape cycle (lines 146-207): the trust-store phase followed
by the four exporter samples.  nowUnix is the cycle start time in Unix
seconds (time.Now at line 148) and elapsedSeconds the wall-clock duration
measured at line 191.  The returned list is the Snapshot assigned to
c.metrics. -/
def scrape (c : CollectorConfig) (env : ScrapeEnv) (nowUnix : Int)
    (elapsedSeconds : Rat) : List Metric :=
  let r := scrapeBody c env
  r.1 ++ exporterSamples c.scrapeIntervalSeconds nowUnix elapsedSeconds r.2

/-- The samples one store contributes to the Snapshot on its own (its
collectTrustStoreMetrics appends starting from an empty slice). -/
def storeSamples (region : String) (e : TrustStore × BundleOutcome) :
    List Metric :=
  (collectTrustStoreMetrics region e.1 e.2 []).1

/-- Whether one store's collection runs to completion without an error. -/
def storeCollectOk (region : String) (e : TrustStore × BundleOutcome) : Bool :=
  (collectTrustStoreMetrics region e.1 e.2 []).2.isNone

/-- Whether a whole cycle succeeds: config resolution, DescribeTrustStores,
and every enumerated store's collection. -/
def cycleOk (region : String) (env : ScrapeEnv) : Bool :=
  env.configOk &&
    match env.describeOutcome with
    | none => false
    | some stores => stores.all (storeCollectOk region)

/-- The names of the three per-certificate sample families. -/
def certSampleNames : List String :=
  [certificateInfoDesc.name, certificateNotBeforeDesc.name,
   certificateExpiryDesc.name]

/-- The names every trust-store-phase sample can carry. -/
def tsSampleNames : List String :=
  [trustStoreInfoDesc.name, trustStoreCertificatesDesc.name,
   trustStoreRevokedEntriesDesc.name] ++ certSampleNames

/-!
The publisher side.  `c.metrics` is the one piece of state shared between
the background scrape goroutine and concurrent `Collect` readers.  The
scrape builds its sample list in a goroutine-local slice; the only accesses
to the shared field are the assignment at line 206 and the iteration at
lines 132-134, each performed while holding `c.mutex` for the whole critical
section.  The machine below makes each mutex-protected critical section one
atomic step and leaves the lock-free building work as separate interleavable
steps that never touch the shared field.
-/

/-- The scraper goroutine's control point: idle between cycles, or building
the local sample list with some stores still pending.  A cycle that fails at
config resolution or enumeration goes straight to a building state with no
pending stores and the success flag already false. -/
inductive Phase where
  | idle
  | building (acc : List Metric) (ok : Bool)
      (pending : List (TrustStore × BundleOutcome))
deriving DecidableEq, Repr

/-- The shared collector state visible to readers (the published `c.metrics`
field) together with the scraper's phase. -/
structure MachineState where
  published : List Metric
  phase : Phase
deriving DecidableEq, Repr

/-- Before the first cycle `c.metrics` is nil. -/
def initState : MachineState := ⟨[], .idle⟩

/-- One interleaving step.  The observation is `some snap` exactly when a
reader runs `Collect` and drains the shared slice (lines 129-135).  All
building steps act only on the scraper's local state; the publish step is
the whole critical section of lines 193-206 (append the four exporter
samples, assign `c.metrics`). -/
inductive Step (c : CollectorConfig) :
    MachineState → Option (List Metric) → MachineState → Prop where
  | startCycleOk (pub : List Metric)
      (stores : List (TrustStore × BundleOutcome)) :
      Step c ⟨pub, .idle⟩ none ⟨pub, .building [] true stores⟩
  | startCycleFail (pub : List Metric) :
      Step c ⟨pub, .idle⟩ none ⟨pub, .building [] false []⟩
  | processStore (pub acc : List Metric) (ok : Bool)
      (e : TrustStore × BundleOutcome)
      (rest : List (TrustStore × BundleOutcome)) :
      Step c ⟨pub, .building acc ok (e :: rest)⟩ none
        ⟨pub, .building (collectStep c.region (acc, ok) e).1
          (collectStep c.region (acc, ok) e).2 rest⟩
  | publish (pub acc : List Metric) (ok : Bool) (nowUnix : Int)
      (elapsedSeconds : Rat) :
      Step c ⟨pub, .building acc ok []⟩ none
        ⟨acc ++ exporterSamples c.scrapeIntervalSeconds nowUnix
          elapsedSeconds ok, .idle⟩
  | readSnapshot (pub : List Metric) (ph : Phase) :
      Step c ⟨pub, ph⟩ (some pub) ⟨pub, ph⟩

/-- States reachable from the freshly constructed collector. -/
inductive Reachable (c : CollectorConfig) : MachineState → Prop where
  | init : Reachable c initState
  | next {s : MachineState} {o : Option (List Metric)} {t : MachineState} :
      Reachable c s → Step c s o t → Reachable c t

/-- A complete Snapshot: the full output of some single scrape cycle. -/
def CompleteSnapshot (c : CollectorConfig) (snap : List Metric) : Prop :=
  ∃ env nowUnix elapsedSeconds, snap = scrape c env nowUnix elapsedSeconds

/-- Invariant on the scraper's phase: a building state's local accumulator
is the fold of the already-processed stores, or the empty failed state of a
config/enumeration failure. -/
def PhaseInv (c : CollectorConfig) : Phase → Prop
  | .idle => True
  | .building acc ok pending =>
      (∃ stores : List (TrustStore × BundleOutcome),
        stores.foldl (collectStep c.region) ([], true) = (acc, ok)) ∨
      (acc = [] ∧ ok = false ∧ pending = [])

/-- Invariant on the whole machine state: the published field is the initial
nil slice or a complete Snapshot, and the phase invariant holds. -/
def StateInv (c : CollectorConfig) (s : MachineState) : Prop :=
  (s.published = [] ∨ CompleteSnapshot c s.published) ∧ PhaseInv c s.phase

end ElbTrustStore

namespace ElbTrustStore

/-- The PEM decode loop only ever appends to the metrics slice it is given,
and its error outcome does not depend on that slice. -/
theorem processPemBlocks_acc (arn : String) (blocks : List PemBlock) :
    ∀ ms : List Metric,
      processPemBlocks arn blocks ms =
        (ms ++ (processPemBlocks arn blocks []).1,
         (processPemBlocks arn blocks []).2) := by
  induction blocks with
  | nil => intro ms; simp [processPemBlocks]
  | cons b rest ih =>
    intro ms
    by_cases hb : b.blockType = "CERTIFICATE"
    · cases hc : b.parsedCert with
      | none => simp [processPemBlocks, hb, hc]; exact ih ms
      | some cert =>
        cases hk : keyLength cert.publicKey with
        | error e => simp [processPemBlocks, hb, hc, hk]
        | ok kl =>
          simp only [processPemBlocks, hb, hc, hk, ne_eq, not_true_eq_false,
            if_false, List.nil_append]
          rw [ih (ms ++ certSamples arn cert kl), ih (certSamples arn cert kl)]
          simp
    · simp only [processPemBlocks]
      rw [if_pos (by simpa using hb), if_pos (by simpa using hb)]
      exact ih ms

/-- collectTrustStoreMetrics only ever appends to the caller's slice, and
its error outcome does not depend on that slice. -/
theorem collectTrustStoreMetrics_acc (region : String) (ts : TrustStore)
    (outcome : BundleOutcome) (ms : List Metric) :
    collectTrustStoreMetrics region ts outcome ms =
      (ms ++ storeSamples region (ts, outcome),
       (collectTrustStoreMetrics region ts outcome []).2) := by
  cases outcome with
  | body s =>
    simp only [collectTrustStoreMetrics, storeSamples, List.nil_append]
    rw [processPemBlocks_acc ts.trustStoreArn s.blocks
      (ms ++ tsInfoSamples region ts),
      processPemBlocks_acc ts.trustStoreArn s.blocks (tsInfoSamples region ts)]
    simp
  | bundleCallError => simp [collectTrustStoreMetrics, storeSamples]
  | httpGetError => simp [collectTrustStoreMetrics, storeSamples]
  | readBodyError => simp [collectTrustStoreMetrics, storeSamples]

/-- The loop over trust stores appends each store's own samples in order and
accumulates the store-level success flags. -/
theorem foldl_collectStep (region : String)
    (stores : List (TrustStore × BundleOutcome)) :
    ∀ (ms : List Metric) (ok : Bool),
      stores.foldl (collectStep region) (ms, ok) =
        (ms ++ (stores.map (storeSamples region)).flatten,
         ok && stores.all (storeCollectOk region)) := by
  induction stores with
  | nil => intro ms ok; simp
  | cons e rest ih =>
    intro ms ok
    have hstep : collectStep region (ms, ok) e =
        (ms ++ storeSamples region e, ok && storeCollectOk region e) := by
      simp only [collectStep, storeCollectOk]
      rw [collectTrustStoreMetrics_acc region e.1 e.2 ms]
    rw [List.foldl_cons, hstep, ih]
    simp [Bool.and_assoc]


/-- Every per-certificate sample carries one of the three certificate
metric names. -/
theorem certSamples_names (arn : String) (cert : Certificate) (kl : Nat) :
    ∀ m ∈ certSamples arn cert kl, m.name ∈ certSampleNames := by
  intro m hm
  simp only [certSamples, constMetric, List.mem_cons, List.mem_singleton] at hm
  rcases hm with h | h | h | h
  · subst h; simp [certSampleNames]
  · subst h; simp [certSampleNames]
  · subst h; simp [certSampleNames]
  · cases h

/-- Every sample the PEM loop appends carries a certificate metric name. -/
theorem processPemBlocks_mem (arn : String) (blocks : List PemBlock) :
    ∀ (ms : List Metric) (m : Metric), m ∈ (processPemBlocks arn blocks ms).1 →
      m ∈ ms ∨ m.name ∈ certSampleNames := by
  induction blocks with
  | nil => intro ms m hm; simp [processPemBlocks] at hm; exact .inl hm
  | cons b rest ih =>
    intro ms m hm
    by_cases hb : b.blockType = "CERTIFICATE"
    · cases hc : b.parsedCert with
      | none =>
        simp only [processPemBlocks, hb, hc, ne_eq, not_true_eq_false,
          if_false] at hm
        exact ih ms m hm
      | some cert =>
        cases hk : keyLength cert.publicKey with
        | error e =>
          simp only [processPemBlocks, hb, hc, hk, ne_eq, not_true_eq_false,
            if_false] at hm
          exact .inl hm
        | ok kl =>
          simp only [processPemBlocks, hb, hc, hk, ne_eq, not_true_eq_false,
            if_false] at hm
          rcases ih _ m hm with h | h
          · rcases List.mem_append.mp h with h' | h'
            · exact .inl h'
            · exact .inr (certSamples_names arn cert kl m h')
          · exact .inr h
    · simp only [processPemBlocks] at hm
      rw [if_pos (by simpa using hb)] at hm
      exact ih ms m hm

/-- Every sample a store contributes is one of its three info/count samples
or carries a certificate metric name. -/
theorem storeSamples_mem (region : String) (e : TrustStore × BundleOutcome)
    (m : Metric) (hm : m ∈ storeSamples region e) :
    m ∈ tsInfoSamples region e.1 ∨ m.name ∈ certSampleNames := by
  obtain ⟨ts, outcome⟩ := e
  cases outcome with
  | body s =>
    simp only [storeSamples, collectTrustStoreMetrics, List.nil_append] at hm
    rcases processPemBlocks_mem ts.trustStoreArn s.blocks _ m hm with h | h
    · exact .inl h
    · exact .inr h
  | bundleCallError => exact .inl (by simpa [storeSamples, collectTrustStoreMetrics] using hm)
  | httpGetError => exact .inl (by simpa [storeSamples, collectTrustStoreMetrics] using hm)
  | readBodyError => exact .inl (by simpa [storeSamples, collectTrustStoreMetrics] using hm)

/-- The name and, for the trust-store info sample, the label shape of every
sample the trust-store phase produces. -/
theorem scrapeBody_mem (c : CollectorConfig) (env : ScrapeEnv) (m : Metric)
    (hm : m ∈ (scrapeBody c env).1) :
    m.name ∈ tsSampleNames ∧
      (m.name = trustStoreInfoDesc.name →
        ∃ a b, m.labelValues = [a, b, c.region]) := by
  rcases henv : env.configOk with _ | _
  · simp [scrapeBody, henv] at hm
  cases hd : env.describeOutcome with
  | none => simp [scrapeBody, henv, hd] at hm
  | some stores =>
    simp only [scrapeBody, henv, hd, if_true] at hm
    rw [foldl_collectStep c.region stores [] true] at hm
    simp only [List.nil_append] at hm
    obtain ⟨l, hl, hml⟩ := List.mem_flatten.mp hm
    obtain ⟨e, he, rfl⟩ := List.mem_map.mp hl
    rcases storeSamples_mem c.region e m hml with h | h
    · simp only [tsInfoSamples, constMetric, List.mem_cons,
        List.mem_singleton] at h
      rcases h with h | h | h | h
      · subst h
        refine ⟨by simp [tsSampleNames], fun _ => ⟨e.1.trustStoreArn, e.1.name, rfl⟩⟩
      · subst h
        have hne : trustStoreCertificatesDesc.name ≠ trustStoreInfoDesc.name := by decide
        exact ⟨by simp [tsSampleNames], fun hn => absurd hn hne⟩
      · subst h
        have hne : trustStoreRevokedEntriesDesc.name ≠ trustStoreInfoDesc.name := by decide
        exact ⟨by simp [tsSampleNames], fun hn => absurd hn hne⟩
      · cases h
    · refine ⟨by simp [tsSampleNames, h], fun hn => ?_⟩
      have : trustStoreInfoDesc.name ∈ certSampleNames := hn ▸ h
      exact absurd this (by decide)



/-- The trust-store phase never emits a sample carrying a name outside
tsSampleNames, so any countP for a name outside that list is zero. -/
theorem scrapeBody_countP_zero (c : CollectorConfig) (env : ScrapeEnv)
    (nm : String) (hnm : ∀ x ∈ tsSampleNames, (x == nm) = false) :
    (scrapeBody c env).1.countP (fun m => m.name == nm) = 0 := by
  refine List.countP_eq_zero.mpr ?_
  intro m hm
  have h := (scrapeBody_mem c env m hm).1
  simp [hnm m.name h]

/-- C3: for every cycle, whatever the configuration, enumeration and
per-store outcomes, the published Snapshot contains each of the four
exporter-level samples (last-scrape timestamp, scrape duration, scrape
interval, collector success) exactly once. -/
theorem snapshot_exporter_samples_exactly_once (c : CollectorConfig)
    (env : ScrapeEnv) (nowUnix : Int) (elapsedSeconds : Rat) :
    ((scrape c env nowUnix elapsedSeconds).countP
        (fun m => m.name == exporterLastScrapeTimestampDesc.name) = 1) ∧
    ((scrape c env nowUnix elapsedSeconds).countP
        (fun m => m.name == exporterScrapeDurationSecondsDesc.name) = 1) ∧
    ((scrape c env nowUnix elapsedSeconds).countP
        (fun m => m.name == exporterScrapeIntervalDesc.name) = 1) ∧
    ((scrape c env nowUnix elapsedSeconds).countP
        (fun m => m.name == collectorSuccessDesc.name) = 1) := by
  have hsplit : scrape c env nowUnix elapsedSeconds =
      (scrapeBody c env).1 ++ exporterSamples c.scrapeIntervalSeconds nowUnix
        elapsedSeconds (scrapeBody c env).2 := rfl
  refine ⟨?_, ?_, ?_, ?_⟩ <;>
    rw [hsplit, List.countP_append, scrapeBody_countP_zero c env _ (by decide)] <;>
    simp [exporterSamples, constMetric, List.countP_cons, List.countP_nil] <;>
    decide


/-- Unfolding of scrape into its two phases. -/
theorem scrape_eq (c : CollectorConfig) (env : ScrapeEnv) (nowUnix : Int)
    (elapsedSeconds : Rat) :
    scrape c env nowUnix elapsedSeconds =
      (scrapeBody c env).1 ++ exporterSamples c.scrapeIntervalSeconds nowUnix
        elapsedSeconds (scrapeBody c env).2 := rfl

/-- The trust-store phase on a successful enumeration: each store's samples
in order, and the conjunction of the store-level success flags. -/
theorem scrapeBody_ok_stores (c : CollectorConfig)
    (stores : List (TrustStore × BundleOutcome)) :
    scrapeBody c ⟨true, some stores⟩ =
      ((stores.map (storeSamples c.region)).flatten,
       stores.all (storeCollectOk c.region)) := by
  simp only [scrapeBody, if_true]
  rw [foldl_collectStep]
  simp

/-- The trust-store phase on a config or enumeration failure. -/
theorem scrapeBody_failure (c : CollectorConfig) (env : ScrapeEnv)
    (h : env.configOk = false ∨ env.describeOutcome = none) :
    scrapeBody c env = ([], false) := by
  cases hc : env.configOk with
  | false => simp [scrapeBody, hc]
  | true =>
    rcases h with h | h
    · rw [hc] at h; cases h
    · simp [scrapeBody, hc, h]

/-- C5: when AWS configuration resolution or the DescribeTrustStores call
fails, the published Snapshot consists of the four exporter samples alone,
carries no trust-store or certificate sample, and its collector_success
sample has value 0. -/
theorem cycle_failure_snapshot_only_exporter (c : CollectorConfig)
    (env : ScrapeEnv) (nowUnix : Int) (elapsedSeconds : Rat)
    (h : env.configOk = false ∨ env.describeOutcome = none) :
    scrape c env nowUnix elapsedSeconds =
      exporterSamples c.scrapeIntervalSeconds nowUnix elapsedSeconds false ∧
    (∀ m ∈ scrape c env nowUnix elapsedSeconds, m.name ∉ tsSampleNames) ∧
    constMetric collectorSuccessDesc 0 [] ∈
      scrape c env nowUnix elapsedSeconds := by
  have hs : scrape c env nowUnix elapsedSeconds =
      exporterSamples c.scrapeIntervalSeconds nowUnix elapsedSeconds false := by
    rw [scrape_eq, scrapeBody_failure c env h]
    rfl
  have hn1 : exporterLastScrapeTimestampDesc.name ∉ tsSampleNames := by decide
  have hn2 : exporterScrapeDurationSecondsDesc.name ∉ tsSampleNames := by decide
  have hn3 : exporterScrapeIntervalDesc.name ∉ tsSampleNames := by decide
  have hn4 : collectorSuccessDesc.name ∉ tsSampleNames := by decide
  refine ⟨hs, ?_, ?_⟩
  · intro m hm
    rw [hs] at hm
    simp only [exporterSamples, constMetric, List.mem_cons,
      List.mem_singleton] at hm
    rcases hm with h1 | h1 | h1 | h1 | h1
    · subst h1; exact hn1
    · subst h1; exact hn2
    · subst h1; exact hn3
    · subst h1; exact hn4
    · cases h1
  · rw [hs]
    simp [exporterSamples, constMetric]


/-- scrape on a successful enumeration, with the success flag explicit. -/
theorem scrape_stores_eq (c : CollectorConfig) (nowUnix : Int)
    (elapsedSeconds : Rat) (stores : List (TrustStore × BundleOutcome)) :
    scrape c ⟨true, some stores⟩ nowUnix elapsedSeconds =
      (stores.map (storeSamples c.region)).flatten ++
        exporterSamples c.scrapeIntervalSeconds nowUnix elapsedSeconds
          (stores.all (storeCollectOk c.region)) := by
  rw [scrape_eq, scrapeBody_ok_stores]

/-- A failing member forces the conjunction of store flags to false. -/
theorem all_false_of_mem_false (region : String)
    (stores : List (TrustStore × BundleOutcome))
    (e : TrustStore × BundleOutcome) (he : e ∈ stores)
    (hfail : storeCollectOk region e = false) :
    stores.all (storeCollectOk region) = false := by
  cases hax : stores.all (storeCollectOk region) with
  | false => rfl
  | true =>
    have := List.all_eq_true.mp hax e he
    rw [hfail] at this; cases this

/-- The success-0 sample is the last exporter sample of a failed cycle. -/
theorem success_zero_mem (ms : List Metric) (i : Rat) (nowUnix : Int)
    (el : Rat) :
    constMetric collectorSuccessDesc 0 [] ∈
      ms ++ exporterSamples i nowUnix el false := by
  exact List.mem_append_right _ (by simp [exporterSamples, constMetric])

/-- C4: when at least one enumerated trust store's collection fails, the
cycle still processes every store in the list (the Snapshot consists of each
store's own samples, in enumeration order, followed by the exporter
samples) and the collector_success sample has value 0. -/
theorem store_failure_does_not_stop_processing (c : CollectorConfig)
    (nowUnix : Int) (elapsedSeconds : Rat)
    (stores : List (TrustStore × BundleOutcome))
    (h : ∃ e ∈ stores, storeCollectOk c.region e = false) :
    scrape c ⟨true, some stores⟩ nowUnix elapsedSeconds =
      (stores.map (storeSamples c.region)).flatten ++
        exporterSamples c.scrapeIntervalSeconds nowUnix elapsedSeconds false ∧
    constMetric collectorSuccessDesc 0 [] ∈
      scrape c ⟨true, some stores⟩ nowUnix elapsedSeconds := by
  obtain ⟨e, he, hfail⟩ := h
  have hall := all_false_of_mem_false c.region stores e he hfail
  have hs := scrape_stores_eq c nowUnix elapsedSeconds stores
  rw [hall] at hs
  exact ⟨hs, hs ▸ success_zero_mem _ _ _ _⟩

/-- C4 witness: a two-store cycle whose first store fails at the bundle
call and whose second succeeds with an empty bundle. -/
theorem store_failure_does_not_stop_processing_witness :
    scrape ⟨"us-east-1", [], 3600⟩
        ⟨true, some [(⟨"arnA", "storeA", 5, 1⟩, .bundleCallError),
                     (⟨"arnB", "storeB", 2, 0⟩, .body ⟨[], 0⟩)]⟩ 0 0 =
      ([(⟨"arnA", "storeA", 5, 1⟩, BundleOutcome.bundleCallError),
        (⟨"arnB", "storeB", 2, 0⟩, BundleOutcome.body ⟨[], 0⟩)].map
          (storeSamples "us-east-1")).flatten ++
        exporterSamples 3600 0 0 false ∧
    constMetric collectorSuccessDesc 0 [] ∈
      scrape ⟨"us-east-1", [], 3600⟩
        ⟨true, some [(⟨"arnA", "storeA", 5, 1⟩, .bundleCallError),
                     (⟨"arnB", "storeB", 2, 0⟩, .body ⟨[], 0⟩)]⟩ 0 0 :=
  store_failure_does_not_stop_processing ⟨"us-east-1", [], 3600⟩ 0 0 _
    ⟨(⟨"arnA", "storeA", 5, 1⟩, .bundleCallError), by decide, by decide⟩


/-- C1 counterexample: trust store arnA fails at the bundle-location call
while trust store arnB succeeds, yet arnA's trust-store info sample appears
in the published Snapshot: collectTrustStoreMetrics appends the info/count
samples through the caller's slice pointer before the bundle call, so they
survive the error return. -/
theorem failed_store_samples_still_published_cex :
    storeCollectOk "us-east-1"
      (⟨"arnA", "storeA", 5, 1⟩, BundleOutcome.bundleCallError) = false ∧
    constMetric trustStoreInfoDesc 1 ["arnA", "storeA", "us-east-1"] ∈
      scrape ⟨"us-east-1", [], 3600⟩
        ⟨true, some [(⟨"arnA", "storeA", 5, 1⟩, .bundleCallError),
                     (⟨"arnB", "storeB", 2, 0⟩, .body ⟨[], 0⟩)]⟩ 0 0 := by
  decide

/-- When a prefix of blocks processes without error, the decode loop
continues into the remaining blocks from the accumulated samples. -/
theorem processPemBlocks_append_of_ok (arn : String) (gs : List PemBlock) :
    ∀ (more : List PemBlock) (acc : List Metric),
      (processPemBlocks arn gs []).2 = none →
      processPemBlocks arn (gs ++ more) acc =
        processPemBlocks arn more (processPemBlocks arn gs acc).1 := by
  induction gs with
  | nil => intro more acc _; rfl
  | cons b gs ih =>
    intro more acc hok
    by_cases hb : b.blockType = "CERTIFICATE"
    · cases hc : b.parsedCert with
      | none =>
        simp only [List.cons_append, processPemBlocks, hb, hc, ne_eq,
          not_true_eq_false, if_false] at hok ⊢
        exact ih more acc hok
      | some cert =>
        cases hk : keyLength cert.publicKey with
        | error e =>
          simp only [processPemBlocks, hb, hc, hk, ne_eq, not_true_eq_false,
            if_false] at hok
          cases hok
        | ok kl =>
          simp only [List.cons_append, processPemBlocks, hb, hc, hk, ne_eq,
            not_true_eq_false, if_false, List.nil_append] at hok ⊢
          rw [processPemBlocks_acc arn gs (certSamples arn cert kl)] at hok
          exact ih more (acc ++ certSamples arn cert kl) hok
    · simp only [List.cons_append, processPemBlocks] at hok ⊢
      rw [if_pos (by simpa using hb)] at hok
      rw [if_pos (by simpa using hb), if_pos (by simpa using hb)]
      exact ih more acc hok

/-- A certificate block with an unrecognized key kind aborts the loop
immediately, leaving exactly the samples accumulated so far. -/
theorem processPemBlocks_unknown_abort (arn : String) (cert : Certificate)
    (bs : List PemBlock) (acc : List Metric)
    (h : cert.publicKey = .unknown) :
    processPemBlocks arn (⟨"CERTIFICATE", some cert⟩ :: bs) acc =
      (acc, some "unknown public key type") := by
  simp [processPemBlocks, h, keyLength]

/-- C1 amended: when a trust store's processing fails — at the
bundle-location call, the HTTP fetch, the body read, or at an unrecognized
key kind during extraction — the samples already appended before the
failure point remain in the published Snapshot: the store contributes
exactly its partial sample list, which always starts with its three
info/count samples; for the three bundle-stage failures it is exactly those
three samples, and for an unrecognized key kind it is those three samples
plus the certificate samples of the blocks processed before the offending
one, with nothing from the offending block or the rest of the bundle.
Cycle-level success is 0 and the other trust stores' samples are exactly
their normal contributions. -/
theorem failed_store_partial_samples_published (c : CollectorConfig)
    (nowUnix : Int) (elapsedSeconds : Rat)
    (pre post : List (TrustStore × BundleOutcome)) (ts : TrustStore)
    (outcome : BundleOutcome)
    (h : storeCollectOk c.region (ts, outcome) = false) :
    scrape c ⟨true, some (pre ++ (ts, outcome) :: post)⟩ nowUnix
        elapsedSeconds =
      (pre.map (storeSamples c.region)).flatten ++
        storeSamples c.region (ts, outcome) ++
        (post.map (storeSamples c.region)).flatten ++
        exporterSamples c.scrapeIntervalSeconds nowUnix elapsedSeconds false ∧
    (∃ rest, storeSamples c.region (ts, outcome) =
      tsInfoSamples c.region ts ++ rest) ∧
    (outcome = .bundleCallError ∨ outcome = .httpGetError ∨
        outcome = .readBodyError →
      storeSamples c.region (ts, outcome) = tsInfoSamples c.region ts) ∧
    (∀ (gs bs : List PemBlock) (cert : Certificate) (g : Nat),
      outcome = .body ⟨gs ++ ⟨"CERTIFICATE", some cert⟩ :: bs, g⟩ →
      cert.publicKey = .unknown →
      (processPemBlocks ts.trustStoreArn gs []).2 = none →
      storeSamples c.region (ts, outcome) =
        tsInfoSamples c.region ts ++
          (processPemBlocks ts.trustStoreArn gs []).1) ∧
    constMetric collectorSuccessDesc 0 [] ∈
      scrape c ⟨true, some (pre ++ (ts, outcome) :: post)⟩ nowUnix
        elapsedSeconds := by
  have hall := all_false_of_mem_false c.region (pre ++ (ts, outcome) :: post)
    (ts, outcome) (by simp) h
  have hs := scrape_stores_eq c nowUnix elapsedSeconds
    (pre ++ (ts, outcome) :: post)
  rw [hall] at hs
  rw [List.map_append, List.map_cons, List.flatten_append,
    List.flatten_cons] at hs
  simp only [List.append_assoc] at hs ⊢
  refine ⟨hs, ?_, ?_, ?_, ?_⟩
  · cases outcome with
    | body s =>
      refine ⟨(processPemBlocks ts.trustStoreArn s.blocks []).1, ?_⟩
      simp only [storeSamples, collectTrustStoreMetrics, List.nil_append]
      rw [processPemBlocks_acc ts.trustStoreArn s.blocks
        (tsInfoSamples c.region ts)]
    | bundleCallError =>
      exact ⟨[], by simp [storeSamples, collectTrustStoreMetrics]⟩
    | httpGetError =>
      exact ⟨[], by simp [storeSamples, collectTrustStoreMetrics]⟩
    | readBodyError =>
      exact ⟨[], by simp [storeSamples, collectTrustStoreMetrics]⟩
  · intro hmode
    rcases hmode with h1 | h1 | h1 <;> subst h1 <;>
      simp [storeSamples, collectTrustStoreMetrics]
  · intro gs bs cert g houtcome hcert hok
    subst houtcome
    simp only [storeSamples, collectTrustStoreMetrics, List.nil_append]
    rw [processPemBlocks_append_of_ok ts.trustStoreArn gs _ _ hok,
      processPemBlocks_unknown_abort ts.trustStoreArn cert bs _ hcert]
    rw [processPemBlocks_acc ts.trustStoreArn gs (tsInfoSamples c.region ts)]
  · rw [hs]
    exact List.mem_append_right _ (List.mem_append_right _
      (List.mem_append_right _ (by simp [exporterSamples, constMetric])))

/-- C1 amended witness: a store aborting extraction at an unrecognized key
kind after one good certificate block, between two succeeding stores: its
info/count samples and the good block's certificate samples remain, the
offending block and the rest of the bundle contribute nothing, and success
is 0. -/
theorem failed_store_partial_samples_published_witness :
    scrape ⟨"eu-west-2", [], 60⟩
        ⟨true, some [(⟨"arnP", "pre", 1, 0⟩, .body ⟨[], 0⟩),
                     (⟨"arnF", "fail", 7, 2⟩, .body ⟨[⟨"CERTIFICATE",
                        some ⟨"sn1", "i", "s", "alg", .ecdsa 256, 3, 4⟩⟩,
                       ⟨"CERTIFICATE",
                        some ⟨"sn2", "i", "s", "alg", .unknown, 3, 4⟩⟩], 0⟩),
                     (⟨"arnQ", "post", 3, 0⟩, .body ⟨[], 4⟩)]⟩ 9 2 =
      ([(⟨"arnP", "pre", 1, 0⟩, BundleOutcome.body ⟨[], 0⟩)].map
          (storeSamples "eu-west-2")).flatten ++
        storeSamples "eu-west-2" (⟨"arnF", "fail", 7, 2⟩,
          .body ⟨[⟨"CERTIFICATE",
            some ⟨"sn1", "i", "s", "alg", .ecdsa 256, 3, 4⟩⟩,
           ⟨"CERTIFICATE",
            some ⟨"sn2", "i", "s", "alg", .unknown, 3, 4⟩⟩], 0⟩) ++
        ([(⟨"arnQ", "post", 3, 0⟩, BundleOutcome.body ⟨[], 4⟩)].map
          (storeSamples "eu-west-2")).flatten ++
        exporterSamples 60 9 2 false ∧
    storeSamples "eu-west-2" (⟨"arnF", "fail", 7, 2⟩,
        .body ⟨[⟨"CERTIFICATE",
          some ⟨"sn1", "i", "s", "alg", .ecdsa 256, 3, 4⟩⟩,
         ⟨"CERTIFICATE",
          some ⟨"sn2", "i", "s", "alg", .unknown, 3, 4⟩⟩], 0⟩) =
      tsInfoSamples "eu-west-2" ⟨"arnF", "fail", 7, 2⟩ ++
        (processPemBlocks "arnF" [⟨"CERTIFICATE",
          some ⟨"sn1", "i", "s", "alg", .ecdsa 256, 3, 4⟩⟩] []).1 ∧
    constMetric collectorSuccessDesc 0 [] ∈
      scrape ⟨"eu-west-2", [], 60⟩
        ⟨true, some [(⟨"arnP", "pre", 1, 0⟩, .body ⟨[], 0⟩),
                     (⟨"arnF", "fail", 7, 2⟩, .body ⟨[⟨"CERTIFICATE",
                        some ⟨"sn1", "i", "s", "alg", .ecdsa 256, 3, 4⟩⟩,
                       ⟨"CERTIFICATE",
                        some ⟨"sn2", "i", "s", "alg", .unknown, 3, 4⟩⟩], 0⟩),
                     (⟨"arnQ", "post", 3, 0⟩, .body ⟨[], 4⟩)]⟩ 9 2 :=
  have H := failed_store_partial_samples_published ⟨"eu-west-2", [], 60⟩ 9 2
    [(⟨"arnP", "pre", 1, 0⟩, .body ⟨[], 0⟩)]
    [(⟨"arnQ", "post", 3, 0⟩, .body ⟨[], 4⟩)]
    ⟨"arnF", "fail", 7, 2⟩
    (.body ⟨[⟨"CERTIFICATE", some ⟨"sn1", "i", "s", "alg", .ecdsa 256, 3, 4⟩⟩,
      ⟨"CERTIFICATE", some ⟨"sn2", "i", "s", "alg", .unknown, 3, 4⟩⟩], 0⟩)
    (by decide)
  ⟨H.1,
   H.2.2.2.1 [⟨"CERTIFICATE", some ⟨"sn1", "i", "s", "alg", .ecdsa 256, 3, 4⟩⟩]
     [] ⟨"sn2", "i", "s", "alg", .unknown, 3, 4⟩ 0 rfl rfl (by decide),
   H.2.2.2.2⟩

/-- The cycle success flag the scrape body computes. -/
theorem scrapeBody_snd (c : CollectorConfig) (env : ScrapeEnv) :
    (scrapeBody c env).2 = cycleOk c.region env := by
  obtain ⟨cfg, dsc⟩ := env
  cases cfg with
  | false => simp [scrapeBody, cycleOk]
  | true =>
    cases dsc with
    | none => simp [scrapeBody, cycleOk]
    | some stores =>
      rw [scrapeBody_ok_stores]
      simp [cycleOk]

/-- C8: the collector_success sample is 1 exactly when configuration
resolution, enumeration and every enumerated store's collection succeeded;
and the Snapshot carries the cycle-start timestamp, the wall-clock elapsed
duration, and the configured interval in the other three exporter
samples. -/
theorem collector_success_iff_all_succeeded (c : CollectorConfig)
    (env : ScrapeEnv) (nowUnix : Int) (elapsedSeconds : Rat) :
    (constMetric collectorSuccessDesc 1 [] ∈
        scrape c env nowUnix elapsedSeconds ↔
      env.configOk = true ∧ ∃ stores, env.describeOutcome = some stores ∧
        ∀ e ∈ stores, storeCollectOk c.region e = true) ∧
    constMetric exporterLastScrapeTimestampDesc (nowUnix : Rat) [] ∈
      scrape c env nowUnix elapsedSeconds ∧
    constMetric exporterScrapeDurationSecondsDesc elapsedSeconds [] ∈
      scrape c env nowUnix elapsedSeconds ∧
    constMetric exporterScrapeIntervalDesc c.scrapeIntervalSeconds [] ∈
      scrape c env nowUnix elapsedSeconds := by
  have hcyc : (cycleOk c.region env = true) ↔
      (env.configOk = true ∧ ∃ stores, env.describeOutcome = some stores ∧
        ∀ e ∈ stores, storeCollectOk c.region e = true) := by
    obtain ⟨cfg, dsc⟩ := env
    cases cfg with
    | false => simp [cycleOk]
    | true =>
      cases dsc with
      | none => simp [cycleOk]
      | some stores => simp [cycleOk, List.all_eq_true]
  refine ⟨?_, ?_, ?_, ?_⟩
  · rw [← hcyc, scrape_eq, ← scrapeBody_snd c env]
    constructor
    · intro hm
      rcases List.mem_append.mp hm with hm | hm
      · have h := (scrapeBody_mem c env _ hm).1
        have hn : collectorSuccessDesc.name ∉ tsSampleNames := by decide
        exact absurd h hn
      · simp only [exporterSamples, constMetric, List.mem_cons,
          List.mem_singleton] at hm
        have hn1 : collectorSuccessDesc.name ≠
            exporterLastScrapeTimestampDesc.name := by decide
        have hn2 : collectorSuccessDesc.name ≠
            exporterScrapeDurationSecondsDesc.name := by decide
        have hn3 : collectorSuccessDesc.name ≠
            exporterScrapeIntervalDesc.name := by decide
        rcases hm with h1 | h1 | h1 | h1 | h1
        · exact absurd (congrArg Metric.name h1) hn1
        · exact absurd (congrArg Metric.name h1) hn2
        · exact absurd (congrArg Metric.name h1) hn3
        · have hv := congrArg Metric.value h1
          cases hb : (scrapeBody c env).2 with
          | true => rfl
          | false =>
            rw [hb] at hv
            simp only at hv
            exact absurd hv (by decide)
        · cases h1
    · intro hsucc
      rw [hsucc]
      refine List.mem_append_right _ ?_
      simp [exporterSamples, constMetric]
  · rw [scrape_eq]
    exact List.mem_append_right _ (by simp [exporterSamples, constMetric])
  · rw [scrape_eq]
    exact List.mem_append_right _ (by simp [exporterSamples, constMetric])
  · rw [scrape_eq]
    exact List.mem_append_right _ (by simp [exporterSamples, constMetric])


/-- With enough fuel, bitLenFuel computes the usual bit length. -/
theorem bitLenFuel_eq : ∀ (f n : Nat), n ≤ f →
    bitLenFuel n f = if n = 0 then 0 else Nat.log2 n + 1 := by
  intro f
  induction f with
  | zero =>
    intro n hn
    interval_cases n
    rfl
  | succ f ih =>
    intro n hn
    match n with
    | 0 => rfl
    | m + 1 =>
      have hdiv : (m + 1) / 2 ≤ f := by
        have h1 : (m + 1) / 2 < m + 1 :=
          Nat.div_lt_self (Nat.succ_pos m) (by decide)
        omega
      have hrec := ih ((m + 1) / 2) hdiv
      show (if m + 1 = 0 then 0 else bitLenFuel ((m + 1) / 2) f + 1) = _
      rw [if_neg (Nat.succ_ne_zero m), if_neg (Nat.succ_ne_zero m), hrec]
      by_cases h2 : m + 1 ≥ 2
      · have hd0 : (m + 1) / 2 ≠ 0 := by
          have : 2 / 2 ≤ (m + 1) / 2 := Nat.div_le_div_right h2
          omega
        rw [if_neg hd0]
        have hlog : Nat.log2 (m + 1) = Nat.log2 ((m + 1) / 2) + 1 := by
          rw [Nat.log2, if_pos h2]
        rw [hlog]
      · have hm : m = 0 := by omega
        subst hm
        have h12 : (1 : Nat) / 2 = 0 := by decide
        rw [h12, if_pos rfl]
        have hlog : Nat.log2 1 = 0 := by
          rw [Nat.log2]
          decide
        rw [hlog]

/-- bitLen agrees with the log2 characterization. -/
theorem bitLen_eq (n : Nat) : bitLen n = if n = 0 then 0 else Nat.log2 n + 1 :=
  bitLenFuel_eq n n (Nat.le_refl n)

/-- bitLen of an exact power of two. -/
theorem bitLen_two_pow (n : Nat) : bitLen (2 ^ n) = n + 1 := by
  rw [bitLen_eq, if_neg (Nat.two_pow_pos n).ne', Nat.log2_eq_log_two,
    Nat.log_pow Nat.one_lt_two]

/-- C6: a successfully parsed certificate reports its key length as the RSA
modulus bit length for an RSA key and the curve's declared bit size for an
elliptic-curve key (rendered in the key_length label as a decimal string),
while any other key kind aborts the bundle's extraction with the error
surfaced to collectTrustStoreMetrics's caller. -/
theorem key_length_reporting (arn region : String) (rest : List PemBlock)
    (acc : List Metric) (cert : Certificate) :
    (∀ n, cert.publicKey = .rsa n →
      processPemBlocks arn (⟨"CERTIFICATE", some cert⟩ :: rest) acc =
        processPemBlocks arn rest (acc ++ certSamples arn cert (bitLen n)) ∧
      constMetric certificateInfoDesc 1
          [arn, cert.serialNumber, cert.issuer, cert.subject,
           cert.signatureAlgorithm, toString (bitLen n)] ∈
        (processPemBlocks arn (⟨"CERTIFICATE", some cert⟩ :: rest) acc).1) ∧
    (∀ b, cert.publicKey = .ecdsa b →
      processPemBlocks arn (⟨"CERTIFICATE", some cert⟩ :: rest) acc =
        processPemBlocks arn rest (acc ++ certSamples arn cert b) ∧
      constMetric certificateInfoDesc 1
          [arn, cert.serialNumber, cert.issuer, cert.subject,
           cert.signatureAlgorithm, toString b] ∈
        (processPemBlocks arn (⟨"CERTIFICATE", some cert⟩ :: rest) acc).1) ∧
    (cert.publicKey = .unknown →
      ∀ (ts : TrustStore) (ms : List Metric) (g : Nat),
        collectTrustStoreMetrics region ts
            (.body ⟨⟨"CERTIFICATE", some cert⟩ :: rest, g⟩) ms =
          (ms ++ tsInfoSamples region ts, some "unknown public key type")) := by
  refine ⟨?_, ?_, ?_⟩
  · intro n hpk
    have hstep : processPemBlocks arn (⟨"CERTIFICATE", some cert⟩ :: rest) acc =
        processPemBlocks arn rest (acc ++ certSamples arn cert (bitLen n)) := by
      simp [processPemBlocks, hpk, keyLength]
    refine ⟨hstep, ?_⟩
    rw [hstep, processPemBlocks_acc]
    refine List.mem_append_left _ (List.mem_append_right _ ?_)
    simp [certSamples, constMetric]
  · intro b hpk
    have hstep : processPemBlocks arn (⟨"CERTIFICATE", some cert⟩ :: rest) acc =
        processPemBlocks arn rest (acc ++ certSamples arn cert b) := by
      simp [processPemBlocks, hpk, keyLength]
    refine ⟨hstep, ?_⟩
    rw [hstep, processPemBlocks_acc]
    refine List.mem_append_left _ (List.mem_append_right _ ?_)
    simp [certSamples, constMetric]
  · intro hpk ts ms g
    simp [collectTrustStoreMetrics, processPemBlocks, hpk, keyLength]

/-- C6 witness: a 2048-bit RSA key reports key length "2048", a 256-bit
elliptic-curve key reports "256", and an unrecognized key kind aborts the
bundle with the error surfaced to the caller. -/
theorem key_length_reporting_witness :
    constMetric certificateInfoDesc 1
        ["a", "sn", "iss", "sub", "alg", "2048"] ∈
      (processPemBlocks "a"
        [⟨"CERTIFICATE", some ⟨"sn", "iss", "sub", "alg",
          .rsa (2 ^ 2047), 10, 20⟩⟩] []).1 ∧
    constMetric certificateInfoDesc 1
        ["a", "sn", "iss", "sub", "alg", "256"] ∈
      (processPemBlocks "a"
        [⟨"CERTIFICATE", some ⟨"sn", "iss", "sub", "alg",
          .ecdsa 256, 10, 20⟩⟩] []).1 ∧
    collectTrustStoreMetrics "r" ⟨"t", "nm", 0, 0⟩
        (.body ⟨[⟨"CERTIFICATE", some ⟨"sn", "iss", "sub", "alg",
          .unknown, 10, 20⟩⟩], 0⟩) [] =
      ([] ++ tsInfoSamples "r" ⟨"t", "nm", 0, 0⟩,
       some "unknown public key type") := by
  have h2048 : toString (bitLen (2 ^ 2047)) = "2048" := by
    rw [bitLen_two_pow]
    decide
  refine ⟨?_, ?_, ?_⟩
  · have h := ((key_length_reporting "a" "r" []
      [] ⟨"sn", "iss", "sub", "alg", .rsa (2 ^ 2047), 10, 20⟩).1
        (2 ^ 2047) rfl).2
    rwa [h2048] at h
  · have h := ((key_length_reporting "a" "r" []
      [] ⟨"sn", "iss", "sub", "alg", .ecdsa 256, 10, 20⟩).2.1 256 rfl).2
    exact h
  · exact (key_length_reporting "a" "r" [] []
      ⟨"sn", "iss", "sub", "alg", .unknown, 10, 20⟩).2.2 rfl ⟨"t", "nm", 0, 0⟩ [] 0


/-- Each certificate contributes exactly one certificate-info sample. -/
theorem certSamples_countP_info (arn : String) (cert : Certificate)
    (kl : Nat) :
    (certSamples arn cert kl).countP
      (fun m => m.name == certificateInfoDesc.name) = 1 := by
  simp [certSamples, constMetric, List.countP_cons, List.countP_nil]
  decide

/-- C7: the decode loop takes PEM blocks until pem.Decode finds none (so
trailing garbage merely stops decoding, without error), skips blocks whose
type is not the literal "CERTIFICATE" without error, skips
certificate-typed blocks whose payload fails to parse without aborting the
remaining blocks, and a bundle of two well-formed certificate blocks plus
one non-certificate block yields exactly two certificate-info facts and no
error. -/
theorem pem_decode_loop_behavior (arn : String) :
    (∀ (blocks : List PemBlock) (g : Nat),
      extractBundle arn ⟨blocks, g⟩ = extractBundle arn ⟨blocks, 0⟩) ∧
    (∀ (b : PemBlock) (rest : List PemBlock) (acc : List Metric),
      b.blockType ≠ "CERTIFICATE" →
      processPemBlocks arn (b :: rest) acc = processPemBlocks arn rest acc) ∧
    (∀ (b : PemBlock) (rest : List PemBlock) (acc : List Metric),
      b.blockType = "CERTIFICATE" → b.parsedCert = none →
      processPemBlocks arn (b :: rest) acc = processPemBlocks arn rest acc) ∧
    (∀ (c1 c2 : Certificate) (other : PemBlock) (k1 k2 : Nat) (g : Nat),
      keyLength c1.publicKey = .ok k1 → keyLength c2.publicKey = .ok k2 →
      other.blockType ≠ "CERTIFICATE" →
      (extractBundle arn ⟨[⟨"CERTIFICATE", some c1⟩,
          ⟨"CERTIFICATE", some c2⟩, other], g⟩).1.countP
        (fun m => m.name == certificateInfoDesc.name) = 2 ∧
      (extractBundle arn ⟨[⟨"CERTIFICATE", some c1⟩,
          ⟨"CERTIFICATE", some c2⟩, other], g⟩).2 = none) := by
  refine ⟨fun blocks g => rfl, ?_, ?_, ?_⟩
  · intro b rest acc hb
    simp [processPemBlocks, hb]
  · intro b rest acc hb hc
    simp [processPemBlocks, hb, hc]
  · intro c1 c2 other k1 k2 g h1 h2 hother
    have hrun : extractBundle arn ⟨[⟨"CERTIFICATE", some c1⟩,
        ⟨"CERTIFICATE", some c2⟩, other], g⟩ =
        (certSamples arn c1 k1 ++ certSamples arn c2 k2, none) := by
      simp [extractBundle, processPemBlocks, h1, h2, hother]
    rw [hrun]
    refine ⟨?_, rfl⟩
    rw [List.countP_append, certSamples_countP_info, certSamples_countP_info]


/-- C7 witness: a skipped non-certificate block under trailing garbage, a
skipped unparsable certificate block, and the two-certificates-plus-one-key
scenario yielding exactly two certificate-info facts. -/
theorem pem_decode_loop_behavior_witness :
    extractBundle "a" ⟨[⟨"RSA PRIVATE KEY", none⟩], 7⟩ =
      extractBundle "a" ⟨[⟨"RSA PRIVATE KEY", none⟩], 0⟩ ∧
    processPemBlocks "a" (⟨"RSA PRIVATE KEY", none⟩ :: []) [] =
      processPemBlocks "a" [] [] ∧
    processPemBlocks "a" (⟨"CERTIFICATE", none⟩ :: []) [] =
      processPemBlocks "a" [] [] ∧
    (extractBundle "a" ⟨[⟨"CERTIFICATE", some ⟨"sn1", "i", "s", "alg",
        .rsa 3, 0, 0⟩⟩, ⟨"CERTIFICATE", some ⟨"sn2", "i", "s", "alg",
        .ecdsa 256, 0, 0⟩⟩, ⟨"EC PRIVATE KEY", none⟩], 3⟩).1.countP
      (fun m => m.name == certificateInfoDesc.name) = 2 :=
  ⟨(pem_decode_loop_behavior "a").1 [⟨"RSA PRIVATE KEY", none⟩] 7,
   (pem_decode_loop_behavior "a").2.1 ⟨"RSA PRIVATE KEY", none⟩ [] []
     (by decide),
   (pem_decode_loop_behavior "a").2.2.1 ⟨"CERTIFICATE", none⟩ [] [] rfl rfl,
   ((pem_decode_loop_behavior "a").2.2.2 ⟨"sn1", "i", "s", "alg", .rsa 3, 0, 0⟩
     ⟨"sn2", "i", "s", "alg", .ecdsa 256, 0, 0⟩ ⟨"EC PRIVATE KEY", none⟩
     2 256 3 rfl rfl (by decide)).1⟩

/-- C9: the extraction is a pure function of the PEM byte stream: running
it twice on the same bytes gives the same ordered result, and the result
depends only on the sequence of blocks pem.Decode yields, not on the
trailing bytes. -/
theorem extraction_deterministic (arn : String) (s t : PemStream) :
    extractBundle arn s = extractBundle arn s ∧
    (s.blocks = t.blocks → extractBundle arn s = extractBundle arn t) := by
  refine ⟨rfl, fun hb => ?_⟩
  simp [extractBundle, hb]

/-- C9 witness: two physically distinct streams with the same blocks. -/
theorem extraction_deterministic_witness :
    extractBundle "a" ⟨[⟨"CERTIFICATE", none⟩], 0⟩ =
      extractBundle "a" ⟨[⟨"CERTIFICATE", none⟩], 0⟩ ∧
    extractBundle "a" ⟨[⟨"CERTIFICATE", none⟩], 0⟩ =
      extractBundle "a" ⟨[⟨"CERTIFICATE", none⟩], 9⟩ :=
  ⟨(extraction_deterministic "a" ⟨[⟨"CERTIFICATE", none⟩], 0⟩
      ⟨[⟨"CERTIFICATE", none⟩], 9⟩).1,
   (extraction_deterministic "a" ⟨[⟨"CERTIFICATE", none⟩], 0⟩
      ⟨[⟨"CERTIFICATE", none⟩], 9⟩).2 rfl⟩

/-- C10: every trust-store info sample in any published Snapshot carries,
as its region label, exactly the region string the collector was
constructed with — not any region the AWS SDK may have auto-discovered. -/
theorem info_sample_region_label (c : CollectorConfig) (env : ScrapeEnv)
    (nowUnix : Int) (elapsedSeconds : Rat) (m : Metric)
    (hm : m ∈ scrape c env nowUnix elapsedSeconds)
    (hname : m.name = trustStoreInfoDesc.name) :
    ∃ a b, m.labelValues = [a, b, c.region] := by
  rw [scrape_eq] at hm
  rcases List.mem_append.mp hm with hm | hm
  · exact (scrapeBody_mem c env m hm).2 hname
  · have hn1 : exporterLastScrapeTimestampDesc.name ≠
        trustStoreInfoDesc.name := by decide
    have hn2 : exporterScrapeDurationSecondsDesc.name ≠
        trustStoreInfoDesc.name := by decide
    have hn3 : exporterScrapeIntervalDesc.name ≠
        trustStoreInfoDesc.name := by decide
    have hn4 : collectorSuccessDesc.name ≠ trustStoreInfoDesc.name := by decide
    simp only [exporterSamples, constMetric, List.mem_cons,
      List.mem_singleton] at hm
    rcases hm with h1 | h1 | h1 | h1 | h1
    · subst h1; exact absurd hname hn1
    · subst h1; exact absurd hname hn2
    · subst h1; exact absurd hname hn3
    · subst h1; exact absurd hname hn4
    · cases h1

/-- C10 witness: a collector constructed with no --region value (the empty
string) publishes the info sample with an empty region label. -/
theorem info_sample_region_label_witness :
    ∃ a b, (constMetric trustStoreInfoDesc 1
        ["arnA", "storeA", ""]).labelValues = [a, b, ""] :=
  info_sample_region_label ⟨"", [], 60⟩
    ⟨true, some [(⟨"arnA", "storeA", 5, 1⟩, .body ⟨[], 0⟩)]⟩ 0 0
    (constMetric trustStoreInfoDesc 1 ["arnA", "storeA", ""])
    (by decide) (by decide)


/-- Every reachable machine state satisfies the publisher invariant: the
shared metrics field holds the initial nil slice or a complete Snapshot,
and the scraper's local accumulator is a fold over processed stores. -/
theorem reachable_inv (c : CollectorConfig) (s : MachineState)
    (hs : Reachable c s) : StateInv c s := by
  induction hs with
  | init => exact ⟨Or.inl rfl, trivial⟩
  | next hr hstep ih =>
    rename_i s' o t
    cases hstep with
    | startCycleOk pub stores =>
      exact ⟨ih.1, Or.inl ⟨[], rfl⟩⟩
    | startCycleFail pub =>
      exact ⟨ih.1, Or.inr ⟨rfl, rfl, rfl⟩⟩
    | processStore pub acc ok e rest =>
      refine ⟨ih.1, ?_⟩
      rcases ih.2 with ⟨stores, hstores⟩ | ⟨_, _, hpend⟩
      · refine Or.inl ⟨stores ++ [e], ?_⟩
        rw [List.foldl_append, hstores]
        rfl
      · cases hpend
    | publish pub acc ok nowUnix elapsedSeconds =>
      refine ⟨?_, trivial⟩
      rcases ih.2 with ⟨stores, hstores⟩ | ⟨hacc, hok, _⟩
      · refine Or.inr ⟨⟨true, some stores⟩, nowUnix, elapsedSeconds, ?_⟩
        rw [scrape_eq]
        simp only [scrapeBody, if_true]
        rw [hstores]
      · subst hacc; subst hok
        refine Or.inr ⟨⟨false, none⟩, nowUnix, elapsedSeconds, ?_⟩
        rw [scrape_eq, scrapeBody_failure _ _ (Or.inl rfl)]
    | readSnapshot pub ph => exact ih

/-- C2: in every interleaving of Collect readers with the background
scraper, a read observes the initial empty snapshot or the complete output
of one single scrape cycle — never a mixture of two cycles and never a
half-built list.  The mutex makes the whole read and the whole
publish each one atomic step; all snapshot-building work happens in
scraper-local state. -/
theorem reader_observes_complete_snapshot (c : CollectorConfig)
    (s t : MachineState) (obs : List Metric) (hs : Reachable c s)
    (hstep : Step c s (some obs) t) :
    obs = [] ∨ CompleteSnapshot c obs := by
  have hinv := reachable_inv c s hs
  cases hstep with
  | readSnapshot pub ph => exact hinv.1

/-- C2 witness: after a config-failure cycle publishes, a reader observes
exactly that cycle's complete Snapshot. -/
theorem reader_observes_complete_snapshot_witness :
    exporterSamples 60 0 0 false = [] ∨
      CompleteSnapshot ⟨"", [], 60⟩ (exporterSamples 60 0 0 false) :=
  reader_observes_complete_snapshot ⟨"", [], 60⟩
    ⟨exporterSamples 60 0 0 false, .idle⟩
    ⟨exporterSamples 60 0 0 false, .idle⟩
    (exporterSamples 60 0 0 false)
    (Reachable.next (Reachable.next Reachable.init (Step.startCycleFail []))
      (Step.publish [] [] false 0 0))
    (Step.readSnapshot (exporterSamples 60 0 0 false) .idle)


/-- C5 witness: a cycle whose AWS configuration resolution fails publishes
only the four exporter samples, with success 0. -/
theorem cycle_failure_snapshot_only_exporter_witness :
    scrape ⟨"", [], 60⟩ ⟨false, none⟩ 0 0 = exporterSamples 60 0 0 false ∧
    constMetric collectorSuccessDesc 0 [] ∈
      scrape ⟨"", [], 60⟩ ⟨false, none⟩ 0 0 :=
  ⟨(cycle_failure_snapshot_only_exporter ⟨"", [], 60⟩ ⟨false, none⟩ 0 0
      (Or.inl rfl)).1,
   (cycle_failure_snapshot_only_exporter ⟨"", [], 60⟩ ⟨false, none⟩ 0 0
      (Or.inl rfl)).2.2⟩

/-- C8 witness: an empty successful enumeration yields a success-1 sample
together with the timestamp sample of the cycle start. -/
theorem collector_success_iff_all_succeeded_witness :
    constMetric collectorSuccessDesc 1 [] ∈
      scrape ⟨"", [], 60⟩ ⟨true, some []⟩ 5 1 ∧
    constMetric exporterLastScrapeTimestampDesc ((5 : Int) : Rat) [] ∈
      scrape ⟨"", [], 60⟩ ⟨true, some []⟩ 5 1 :=
  ⟨(collector_success_iff_all_succeeded ⟨"", [], 60⟩ ⟨true, some []⟩ 5 1).1.mpr
      ⟨rfl, [], rfl, by simp⟩,
   (collector_success_iff_all_succeeded ⟨"", [], 60⟩ ⟨true, some []⟩ 5 1).2.1⟩


end ElbTrustStore
